import Mathlib

/-!
Verification of the Azr-Core-Event schedule/speakers API against its
natural-language specification.

The development shallowly embeds the JavaScript source
(`api/src/functions/schedule.js`, the speakers function file) into Lean:

* strings handled character by character are modelled as `List Char`;
* JavaScript values that may be `undefined` are modelled as `Option`;
* the Azure table is modelled as a `List` of entities, with
  `createEntity` appending, `updateEntity _ "Replace"` replacing at the
  compound (partitionKey, rowKey) key and `deleteEntity` removing that key;
* `new Date(s)` / `Date.prototype.toISOString` are modelled by an
  ECMA-262 "Date Time String Format" parser and printer over epoch
  milliseconds (the normative interchange format; `toISOString` output and
  every date literal appearing in the spec are in this format);
* nondeterministic `generateSessionId()` results are passed in as
  parameters.

Definitions mirror the control flow of the source functions; theorems at
the end settle the specification claims.
-/

namespace AzrCoreEvent

/-! ## CSV codec (schedule.js: escapeCsvField, stripExcelQuote,
    parseCsvLine, parseCsv) -/

/-- The characters Excel interprets as formula starters
(`const formulaChars = ['-', '+', '=', '@']` in `escapeCsvField`). -/
def formulaChars : List Char := ['-', '+', '=', '@']

/-- `formulaChars.some(ch => str.startsWith(ch))`. -/
def startsWithFormula : List Char → Bool
  | [] => false
  | c :: _ => formulaChars.contains c

/-- `str.replace(/"/g, '""')`: double every double-quote character. -/
def doubleQuotes : List Char → List Char
  | [] => []
  | c :: rest => if c = '"' then '"' :: '"' :: doubleQuotes rest else c :: doubleQuotes rest

/-- `str.includes(',') || str.includes('"') || str.includes('\n') || str.includes('\r')`. -/
def containsSpecial (s : List Char) : Bool :=
  s.contains ',' || s.contains '"' || s.contains '\n' || s.contains '\r'

/-- `escapeCsvField` (schedule.js lines 913-930, the variant with Excel
formula protection): a field starting with `-`, `+`, `=`, `@` gets a
single-quote prefix and is quoted; a field containing a comma, quote, CR
or LF is quoted with internal quotes doubled; otherwise it is returned
verbatim. -/
def escapeCsvField (s : List Char) : List Char :=
  if startsWithFormula s || containsSpecial s then
    let s' := if startsWithFormula s then '\'' :: s else s
    '"' :: (doubleQuotes s' ++ ['"'])
  else s

/-- `stripExcelQuote` (schedule.js lines 979-984): remove a leading
single quote when the character after it is one of the formula
characters. -/
def stripExcelQuote (s : List Char) : List Char :=
  match s with
  | '\'' :: c :: rest => if formulaChars.contains c then c :: rest else s
  | _ => s

/-- The state machine of `parseCsvLine` (schedule.js lines 987-1024).
Arguments: remaining input, accumulated current field, `inQuotes` flag.
Each completed field passes through `stripExcelQuote` exactly as at the
two `fields.push(stripExcelQuote(current))` sites of the source. -/
def parseCsvLineAux : List Char → List Char → Bool → List (List Char)
  | [], current, _ => [stripExcelQuote current]
  | '"' :: '"' :: rest, current, true => parseCsvLineAux rest (current ++ ['"']) true
  | '"' :: rest, current, true => parseCsvLineAux rest current false
  | c :: rest, current, true => parseCsvLineAux rest (current ++ [c]) true
  | '"' :: rest, current, false => parseCsvLineAux rest current true
  | ',' :: rest, current, false => stripExcelQuote current :: parseCsvLineAux rest [] false
  | c :: rest, current, false => parseCsvLineAux rest (current ++ [c]) false

/-- `parseCsvLine` (schedule.js lines 987-1024). -/
def parseCsvLine (line : List Char) : List (List Char) :=
  parseCsvLineAux line [] false

/-- The JavaScript `String.prototype.trim` whitespace set (ECMA-262
WhiteSpace and LineTerminator code points). -/
def isJsSpace (c : Char) : Bool :=
  c = ' ' || c = '\t' || c = '\n' || c = '\r' ||
  c.toNat = 11 || c.toNat = 12 || c.toNat = 0xA0 || c.toNat = 0xFEFF ||
  c.toNat = 0x1680 || (0x2000 ≤ c.toNat && c.toNat ≤ 0x200A) ||
  c.toNat = 0x2028 || c.toNat = 0x2029 || c.toNat = 0x202F ||
  c.toNat = 0x205F || c.toNat = 0x3000

/-- `s.trim()` on a character list. -/
def trimJs (cs : List Char) : List Char :=
  ((cs.dropWhile isJsSpace).reverse.dropWhile isJsSpace).reverse

/-- `if (currentRow.trim()) rows.push(currentRow)` of `parseCsv`: the
(untrimmed) row is kept only when its trim is nonempty. -/
def pushRow (cur : List Char) (tail : List (List Char)) : List (List Char) :=
  if trimJs cur = [] then tail else cur :: tail

/-- The record splitter `parseCsv` (schedule.js lines 1027-1050): a quote
toggles `inQuotes` and is kept; `\n`, `\r\n` or a lone `\r` outside
quotes ends a record (a `\r\n` pair consumes both characters); everything
else is appended to the current record. -/
def parseCsvAux : List Char → List Char → Bool → List (List Char)
  | [], cur, _ => pushRow cur []
  | '"' :: rest, cur, inQ => parseCsvAux rest (cur ++ ['"']) (!inQ)
  | '\n' :: rest, cur, false => pushRow cur (parseCsvAux rest [] false)
  | '\r' :: '\n' :: rest, cur, false => pushRow cur (parseCsvAux rest [] false)
  | '\r' :: rest, cur, false => pushRow cur (parseCsvAux rest [] false)
  | c :: rest, cur, inQ => parseCsvAux rest (cur ++ [c]) inQ

/-- `parseCsv` (schedule.js lines 1027-1050). -/
def parseCsv (content : List Char) : List (List Char) :=
  parseCsvAux content [] false

/-- A field on which `stripExcelQuote` is not the identity: it starts
with a single quote whose next character is a formula character. -/
def spuriousStrip : List Char → Bool
  | '\'' :: c :: _ => formulaChars.contains c
  | _ => false

/-! ## JavaScript date model

`new Date(string)` and `Date.prototype.toISOString` are host builtins.
They are modelled over epoch milliseconds (`Int`): the parser implements
the normative ECMA-262 Date Time String Format
`YYYY[-MM[-DD]][THH:mm[:ss[.sss]][Z|(+|-)HH:mm]]` (the format produced
by `toISOString` and used by every date in the repository), with
date-only forms read as UTC and date-time forms without an offset read
as local time, supplied through the `localOffsetMin` parameter (minutes
east of UTC). A string outside this format — e.g. `"not-a-date"` — is an
Invalid Date, modelled as `none`. -/

/-- Days from 1970-01-01 of a proleptic Gregorian date (the civil
calendar computation underlying ECMA-262 `MakeDay`). -/
def daysFromCivil (y m d : Int) : Int :=
  let y' := if m ≤ 2 then y - 1 else y
  let era := Int.fdiv y' 400
  let yoe := y' - era * 400
  let mp := Int.emod (m + 9) 12
  let doy := Int.fdiv (153 * mp + 2) 5 + d - 1
  let doe := yoe * 365 + Int.fdiv yoe 4 - Int.fdiv yoe 100 + doy
  era * 146097 + doe - 719468

/-- Inverse of `daysFromCivil`: the (year, month, day) of a day number
(the computation underlying `YearFromTime`/`MonthFromTime`/`DateFromTime`). -/
def civilFromDays (z : Int) : Int × Int × Int :=
  let z' := z + 719468
  let era := Int.fdiv z' 146097
  let doe := z' - era * 146097
  let yoe := Int.fdiv (doe - Int.fdiv doe 1460 + Int.fdiv doe 36524 - Int.fdiv doe 146096) 365
  let doy := doe - (365 * yoe + Int.fdiv yoe 4 - Int.fdiv yoe 100)
  let mp := Int.fdiv (5 * doy + 2) 153
  let d := doy - Int.fdiv (153 * mp + 2) 5 + 1
  let m := if mp < 10 then mp + 3 else mp - 9
  let y := if m ≤ 2 then yoe + era * 400 + 1 else yoe + era * 400
  (y, m, d)

/-- Zero-pad a natural number to `w` digits. -/
def padNum (w : Nat) (n : Nat) : String :=
  let s := toString n
  String.mk (List.replicate (w - s.length) '0') ++ s

/-- The year field of `toISOString`: four digits, or the expanded
signed six-digit form outside 0000-9999. -/
def isoYearString (y : Int) : String :=
  if 0 ≤ y ∧ y ≤ 9999 then padNum 4 y.toNat
  else (if y < 0 then "-" else "+") ++ padNum 6 y.natAbs

/-- `Date.prototype.toISOString` on an epoch-millisecond value:
`YYYY-MM-DDTHH:mm:ss.sssZ` in UTC. -/
def toISOStringMs (t : Int) : String :=
  let days := Int.fdiv t 86400000
  let msod := (Int.fmod t 86400000).toNat
  let ymd := civilFromDays days
  isoYearString ymd.1 ++ "-" ++ padNum 2 ymd.2.1.toNat ++ "-" ++ padNum 2 ymd.2.2.toNat ++
    "T" ++ padNum 2 (msod / 3600000) ++ ":" ++ padNum 2 (msod % 3600000 / 60000) ++
    ":" ++ padNum 2 (msod % 60000 / 1000) ++ "." ++ padNum 3 (msod % 1000) ++ "Z"

/-- `startDate.toISOString().split('T')[0]`: the date part of the UTC
rendering. -/
def isoDateOnly (t : Int) : String :=
  String.mk ((toISOStringMs t).toList.takeWhile (fun c => c ≠ 'T'))

def digitVal (c : Char) : Nat := c.toNat - 48

def allDigits (cs : List Char) : Bool := cs.all Char.isDigit

def digits2 (a b : Char) : Nat := digitVal a * 10 + digitVal b

/-- The `YYYY[-MM[-DD]]` part of the Date Time String Format; returns
the fields and the unconsumed remainder. -/
def parseDatePart : List Char → Option (Nat × Nat × Nat × List Char)
  | y1 :: y2 :: y3 :: y4 :: rest =>
    if allDigits [y1, y2, y3, y4] then
      let y := digitVal y1 * 1000 + digitVal y2 * 100 + digitVal y3 * 10 + digitVal y4
      match rest with
      | '-' :: m1 :: m2 :: rest2 =>
        if allDigits [m1, m2] then
          match rest2 with
          | '-' :: d1 :: d2 :: rest3 =>
            if allDigits [d1, d2] then some (y, digits2 m1 m2, digits2 d1 d2, rest3)
            else none
          | _ => some (y, digits2 m1 m2, 1, rest2)
        else none
      | _ => some (y, 1, 1, rest)
    else none
  | _ => none

/-- The `THH:mm[:ss[.sss]]` part of the Date Time String Format. -/
def parseTimePart : List Char → Option (Nat × Nat × Nat × Nat × List Char)
  | 'T' :: h1 :: h2 :: ':' :: n1 :: n2 :: rest =>
    if allDigits [h1, h2, n1, n2] then
      match rest with
      | ':' :: s1 :: s2 :: rest2 =>
        if allDigits [s1, s2] then
          match rest2 with
          | '.' :: a :: b :: c :: rest3 =>
            if allDigits [a, b, c] then
              some (digits2 h1 h2, digits2 n1 n2, digits2 s1 s2,
                digitVal a * 100 + digitVal b * 10 + digitVal c, rest3)
            else none
          | _ => some (digits2 h1 h2, digits2 n1 n2, digits2 s1 s2, 0, rest2)
        else none
      | _ => some (digits2 h1 h2, digits2 n1 n2, 0, 0, rest)
    else none
  | _ => none

/-- The trailing time-zone designator: empty (local time), `Z`, or
`(+|-)HH:mm` (minutes east of UTC). -/
def parseOffsetPart : List Char → Option (Option Int)
  | [] => some none
  | ['Z'] => some (some 0)
  | '+' :: h1 :: h2 :: ':' :: m1 :: m2 :: [] =>
    if allDigits [h1, h2, m1, m2] && decide (digits2 h1 h2 ≤ 23) && decide (digits2 m1 m2 ≤ 59) then
      some (some (Int.ofNat (digits2 h1 h2 * 60 + digits2 m1 m2)))
    else none
  | '-' :: h1 :: h2 :: ':' :: m1 :: m2 :: [] =>
    if allDigits [h1, h2, m1, m2] && decide (digits2 h1 h2 ≤ 23) && decide (digits2 m1 m2 ≤ 59) then
      some (some (-(Int.ofNat (digits2 h1 h2 * 60 + digits2 m1 m2))))
    else none
  | _ => none

def isLeapYear (y : Nat) : Bool := (y % 4 == 0 && y % 100 != 0) || y % 400 == 0

def daysInMonth (y m : Nat) : Nat :=
  if m == 2 then (if isLeapYear y then 29 else 28)
  else if m == 4 || m == 6 || m == 9 || m == 11 then 30 else 31

def validYMD (y m d : Nat) : Bool :=
  1 ≤ m && m ≤ 12 && 1 ≤ d && d ≤ daysInMonth y m

def validHMS (h mi s ms : Nat) : Bool :=
  (h < 24 || (h == 24 && mi == 0 && s == 0 && ms == 0)) && mi ≤ 59 && s ≤ 59

/-- `new Date(s).getTime()` for a string argument: `some` epoch
milliseconds, or `none` for an Invalid Date (`NaN`). -/
def jsDateParse (localOffsetMin : Int) (s : String) : Option Int :=
  match parseDatePart s.toList with
  | none => none
  | some (y, m, d, rest) =>
    if validYMD y m d then
      match rest with
      | [] =>
        let t := daysFromCivil y m d * 86400000
        if t.natAbs ≤ 8640000000000000 then some t else none
      | _ =>
        match parseTimePart rest with
        | none => none
        | some (h, mi, sec, ms, rest2) =>
          if validHMS h mi sec ms then
            match parseOffsetPart rest2 with
            | none => none
            | some off =>
              let t := daysFromCivil y m d * 86400000 +
                  Int.ofNat (h * 3600000 + mi * 60000 + sec * 1000 + ms) -
                  (off.getD localOffsetMin) * 60000
              if t.natAbs ≤ 8640000000000000 then some t else none
          else none
    else none

/-- `parseInt` on a string: leading whitespace skipped, optional sign,
then a maximal run of decimal digits; no digits gives `NaN` (`none`).
The hexadecimal `0x` form of `parseInt` is not modelled. -/
def jsLeadingNat (cs : List Char) : Option Nat :=
  let ds := cs.takeWhile Char.isDigit
  if ds = [] then none else some (ds.foldl (fun a c => a * 10 + digitVal c) 0)

def jsParseInt (cs : List Char) : Option Int :=
  match cs.dropWhile isJsSpace with
  | '-' :: rest => (jsLeadingNat rest).map (fun n => -(n : Int))
  | '+' :: rest => (jsLeadingNat rest).map (fun n => (n : Int))
  | t => (jsLeadingNat t).map (fun n => (n : Int))

/-! ## Table entities and JavaScript value helpers -/

/-- A row of the `VideoSchedule` table. `videoId` and `title` are
`Option` because `addScheduleItem` stores `body.videoId` / `body.title`
unchecked, so they may be `undefined`; the remaining fields are always
strings (resp. a number) on every write path. -/
structure SessionEntity where
  partitionKey : String
  rowKey : String
  videoId : Option String
  title : Option String
  description : String
  url : String
  startTime : String
  duration : Int
  deriving DecidableEq

/-- A JSON request body for the schedule endpoints; `none` is an absent
field. -/
structure RequestBody where
  videoId : Option String := none
  title : Option String := none
  description : Option String := none
  url : Option String := none
  startTime : Option String := none
  duration : Option Int := none

/-- JavaScript `b || e` for a possibly-absent string `b`: an absent or
empty (falsy) value selects `e`. -/
def jsOrString (b : Option String) (e : String) : String :=
  match b with
  | none => e
  | some s => if s = "" then e else s

/-- JavaScript `b || e` when the fallback may itself be `undefined`. -/
def jsOrOptString (b : Option String) (e : Option String) : Option String :=
  match b with
  | none => e
  | some s => if s = "" then e else some s

/-- JavaScript `b || e` for numbers (`0` and `NaN`/absent are falsy). -/
def jsOrInt (b : Option Int) (e : Int) : Int :=
  match b with
  | none => e
  | some d => if d = 0 then e else d

/-- Template-literal stringification, under which `undefined` prints as
`"undefined"`. -/
def jsUndefToString : Option String → String
  | none => "undefined"
  | some s => s

/-! ## Table-store operations

The Azure table is a list of entities keyed by the compound
(partitionKey, rowKey) pair: `createEntity` appends,
`updateEntity _ "Replace"` substitutes at the key, `deleteEntity`
removes the key, and the `for await … of client.listEntities()` lookup
loops (which `break` on the first hit) are `List.find?`. -/

def findByRowKey (table : List SessionEntity) (id : String) : Option SessionEntity :=
  table.find? (fun e => e.rowKey == id)

def createEntity (table : List SessionEntity) (e : SessionEntity) : List SessionEntity :=
  table ++ [e]

def replaceEntity (table : List SessionEntity) (e : SessionEntity) : List SessionEntity :=
  table.map (fun x => if x.partitionKey == e.partitionKey && x.rowKey == e.rowKey then e else x)

def deleteEntity (table : List SessionEntity) (pk rk : String) : List SessionEntity :=
  table.filter (fun x => !(x.partitionKey == pk && x.rowKey == rk))

/-! ## Schedule handlers -/

/-- Outcome of a handler: HTTP status plus the table after the call. -/
structure HandlerOutcome where
  status : Nat
  table : List SessionEntity
  deriving DecidableEq

/-- `addScheduleItem` (schedule.js lines 781-817): derives the partition
key from `new Date(body.startTime)`, builds the entity with JavaScript
`||` defaults and creates it. A missing or unparsable `startTime` makes
`toISOString()` throw, which the surrounding `try`/`catch` surfaces as
HTTP 500; no other field is validated. `sessionId` stands for the
`generateSessionId()` result. -/
def addScheduleItem (localOffsetMin : Int) (sessionId : String) (body : RequestBody)
    (table : List SessionEntity) : HandlerOutcome :=
  match body.startTime with
  | none => ⟨500, table⟩
  | some st =>
    match jsDateParse localOffsetMin st with
    | none => ⟨500, table⟩
    | some t =>
      let entity : SessionEntity := {
        partitionKey := isoDateOnly t
        rowKey := sessionId
        videoId := body.videoId
        title := body.title
        description := jsOrString body.description ""
        url := jsOrString body.url ("https://www.youtube.com/watch?v=" ++ jsUndefToString body.videoId)
        startTime := st
        duration := jsOrInt body.duration 0 }
      ⟨201, createEntity table entity⟩

/-- The entity built by `updateScheduleItem` (schedule.js lines 849-858):
each field falls back to the stored value when the body omits it
(`||` for the string fields, an explicit `!== undefined` check for
`description` and `duration`). -/
def mergeUpdate (id : String) (body : RequestBody) (existing : SessionEntity) : SessionEntity :=
  { partitionKey := existing.partitionKey
    rowKey := id
    videoId := jsOrOptString body.videoId existing.videoId
    title := jsOrOptString body.title existing.title
    description := body.description.getD existing.description
    url := jsOrString body.url existing.url
    startTime := jsOrString body.startTime existing.startTime
    duration := body.duration.getD existing.duration }

/-- `updateScheduleItem` (schedule.js lines 820-873): scan for the row
key, 404 when absent, otherwise an unconditional Replace write of the
merged entity. -/
def updateScheduleItem (id : String) (body : RequestBody) (table : List SessionEntity) :
    HandlerOutcome :=
  match findByRowKey table id with
  | none => ⟨404, table⟩
  | some existing => ⟨200, replaceEntity table (mergeUpdate id body existing)⟩

/-! ## CSV import (schedule.js lines 1053-1155) -/

/-- `h.trim().toLowerCase()` applied to each header cell. -/
def lowerTrim (h : List Char) : List Char := (trimJs h).map Char.toLower

/-- The `record` object: `headers.forEach((header, index) => record[header]
= values[index] || '')`. A later duplicate header overwrites an earlier
one, so a key's value is its last assignment. -/
def buildRecord (headers values : List (List Char)) : List (List Char × List Char) :=
  headers.enum.map (fun p => (p.2, values.getD p.1 []))

/-- `record[key]`: the last assignment for `key`, or `none` when the key
was never a header. -/
def recordValue (record : List (List Char × List Char)) (key : List Char) :
    Option (List Char) :=
  ((record.filter (fun p => p.1 == key)).getLast?).map (fun p => p.2)

/-- `record[key]?.trim() || dflt`. -/
def recTrimOr (record : List (List Char × List Char)) (key dflt : List Char) : List Char :=
  match recordValue record key with
  | none => dflt
  | some v => if trimJs v = [] then dflt else trimJs v

/-- The per-row error string
`Row ${i + 1}: Invalid startTime "${record.starttime}"`. -/
def rowErrMsg (rowNum : Nat) (stVal : Option (List Char)) : String :=
  "Row " ++ toString rowNum ++ ": Invalid startTime \"" ++
    (match stVal with
      | none => "undefined"
      | some v => String.mk v) ++ "\""

/-- `record.sessionid?.trim() || generateSessionId()` for a data row
(`fid` stands for the fresh `generateSessionId()` result). -/
def importRowSessionId (fid : String) (headers : List (List Char)) (row : List Char) : String :=
  String.mk (recTrimOr (buildRecord headers (parseCsvLine row)) "sessionid".toList fid.toList)

/-- The entity built for an import row whose `starttime` parsed to `t`
(schedule.js lines 1102-1111). -/
def importRowEntity (record : List (List Char × List Char)) (sessionId : String)
    (t : Int) : SessionEntity :=
  { partitionKey := isoDateOnly t
    rowKey := sessionId
    videoId := some (String.mk (recTrimOr record "videoid".toList []))
    title := some (String.mk (recTrimOr record "title".toList []))
    description := String.mk ((recordValue record "description".toList).getD [])
    url := String.mk (recTrimOr record "url".toList
      ("https://www.youtube.com/watch?v=".toList ++
        (match recordValue record "videoid".toList with
          | none => "undefined".toList
          | some v => trimJs v)))
    startTime := String.mk (recTrimOr record "starttime".toList [])
    duration := jsOrInt ((recordValue record "duration".toList).bind jsParseInt) 0 }

/-- The running aggregate of an import: the table plus
`{ created, updated, errors }`. -/
structure ImportState where
  table : List SessionEntity
  created : Nat
  updated : Nat
  errors : List String
  deriving DecidableEq

/-- One iteration of the import loop (schedule.js lines 1084-1137):
an unparsable `starttime` appends a per-row error and leaves the table
alone; otherwise the row is upserted — replace in place when the first
row with the same row key has the same partition key, delete-and-create
when it sits under a different partition key, plain create when no row
has that key. `freshId` stands for the `generateSessionId()` result. -/
def processImportRow (localOffsetMin : Int) (freshId : String)
    (headers : List (List Char)) (row : List Char) (rowNum : Nat)
    (st : ImportState) : ImportState :=
  let values := parseCsvLine row
  let record := buildRecord headers values
  let sessionId := importRowSessionId freshId headers row
  match recordValue record "starttime".toList with
  | none => { st with errors := st.errors ++ [rowErrMsg rowNum none] }
  | some rawStart =>
    match jsDateParse localOffsetMin (String.mk rawStart) with
    | none => { st with errors := st.errors ++ [rowErrMsg rowNum (some rawStart)] }
    | some t =>
      let entity := importRowEntity record sessionId t
      match findByRowKey st.table sessionId with
      | none =>
        { st with table := createEntity st.table entity, created := st.created + 1 }
      | some existing =>
        if existing.partitionKey == entity.partitionKey then
          { st with table := replaceEntity st.table entity, updated := st.updated + 1 }
        else
          { st with
              table := createEntity (deleteEntity st.table existing.partitionKey existing.rowKey)
                entity
              updated := st.updated + 1 }

/-- The import loop over the data rows: row `j` (0-based) is CSV row
`j + 2` in the error messages, exactly the `i + 1` of the source's
1-based loop. -/
def processImportRows (localOffsetMin : Int) (freshIds : Nat → String)
    (headers : List (List Char)) :
    List (List Char) → Nat → ImportState → ImportState
  | [], _, st => st
  | row :: rest, j, st =>
      processImportRows localOffsetMin freshIds headers rest (j + 1)
        (processImportRow localOffsetMin (freshIds j) headers row (j + 2) st)

/-- `const requiredColumns = ['videoid', 'title', 'starttime']`. -/
def requiredColumns : List (List Char) :=
  ["videoid".toList, "title".toList, "starttime".toList]

/-- Outcome of the import handler. -/
structure ImportOutcome where
  status : Nat
  table : List SessionEntity
  created : Nat
  updated : Nat
  errors : List String
  deriving DecidableEq

/-- `importScheduleFromCsv` (schedule.js lines 1053-1155): fewer than
two parsed rows or a missing required header column aborts with
HTTP 400 before any data row is touched; otherwise every data row is
processed and the aggregate is returned with HTTP 200. -/
def importScheduleFromCsv (localOffsetMin : Int) (freshIds : Nat → String)
    (content : String) (table : List SessionEntity) : ImportOutcome :=
  match parseCsv content.toList with
  | r0 :: r1 :: rest =>
    let headers := (parseCsvLine r0).map lowerTrim
    match requiredColumns.find? (fun c => !(headers.contains c)) with
    | some _ => ⟨400, table, 0, 0, []⟩
    | none =>
      let st := processImportRows localOffsetMin freshIds headers (r1 :: rest) 0
        ⟨table, 0, 0, []⟩
      ⟨200, st.table, st.created, st.updated, st.errors⟩
  | _ => ⟨400, table, 0, 0, []⟩

/-! ## Speakers: extraction-triggered merge (speakers function file,
`extractSpeakers`) -/

/-- A row of the `Speakers` table, with the JSON-serialized `sessionIds`
modelled as the list it encodes. -/
structure SpeakerEntity where
  partitionKey : String
  rowKey : String
  name : String
  title : String
  company : String
  bio : String
  headshotFile : String
  linkedin : String
  twitter : String
  sessionIds : List String
  deriving DecidableEq

/-- `[...new Set(l)]`: JavaScript Set insertion-order deduplication
(first occurrence kept). -/
def jsSetDedup (seen : List String) : List String → List String
  | [] => []
  | x :: xs => if seen.contains x then jsSetDedup seen xs else x :: jsSetDedup (x :: seen) xs

/-- The merge path of `extractSpeakers` for a name matching an existing
speaker: `mergedSessionIds = [...new Set([...existingSessionIds,
...sessionIds])]`, written back over the existing record by Replace. -/
def mergeExtractedSpeaker (existing : SpeakerEntity) (newIds : List String) : SpeakerEntity :=
  { existing with sessionIds := jsSetDedup [] (existing.sessionIds ++ newIds) }

/-- A concrete stored session, used by witnesses. -/
def sampleSession : SessionEntity :=
  { partitionKey := "2026-03-10"
    rowKey := "sess_1"
    videoId := some "vidA"
    title := some "Old Title"
    description := "about stuff"
    url := "https://www.youtube.com/watch?v=vidA"
    startTime := "2026-03-10T10:00:00Z"
    duration := 45 }

/-! ### Round-trip lemmas for the CSV field codec -/

theorem stripExcelQuote_eq_self {s : List Char} (h : spuriousStrip s = false) :
    stripExcelQuote s = s := by
  match s with
  | [] => rfl
  | [c] => simp [stripExcelQuote]
  | a :: c :: rest =>
    by_cases ha : a = '\''
    · subst ha
      simp [spuriousStrip] at h
      simp [stripExcelQuote, h]
    · simp [stripExcelQuote, ha]

theorem parseCsvLineAux_cons_true {c : Char} (rest cur : List Char) (hc : c ≠ '"') :
    parseCsvLineAux (c :: rest) cur true = parseCsvLineAux rest (cur ++ [c]) true := by
  rw [parseCsvLineAux.eq_def]
  simp [hc]

theorem parseCsvLineAux_cons_false {c : Char} (rest cur : List Char)
    (hc : c ≠ '"') (hcomma : c ≠ ',') :
    parseCsvLineAux (c :: rest) cur false = parseCsvLineAux rest (cur ++ [c]) false := by
  rw [parseCsvLineAux.eq_def]
  simp [hc, hcomma]

/-- Parsing the quote-doubled body of a quoted field followed by the
closing quote accumulates the body verbatim and closes the field. -/
theorem parseCsvLineAux_doubleQuotes (s : List Char) : ∀ cur : List Char,
    parseCsvLineAux (doubleQuotes s ++ ['"']) cur true = [stripExcelQuote (cur ++ s)] := by
  induction s with
  | nil => intro cur; simp [doubleQuotes, parseCsvLineAux]
  | cons c s' ih =>
    intro cur
    by_cases hc : c = '"'
    · subst hc
      simp only [doubleQuotes, if_pos rfl, List.cons_append, parseCsvLineAux, List.append_eq]
      rw [ih]
      simp
    · simp only [doubleQuotes, if_neg hc, List.cons_append]
      rw [parseCsvLineAux_cons_true _ _ hc, ih]
      simp

/-- Parsing an unquoted field with no quote and no comma accumulates the
whole line as one field. -/
theorem parseCsvLineAux_plain (x : List Char) (hq : x.contains '"' = false)
    (hcomma : x.contains ',' = false) : ∀ cur : List Char,
    parseCsvLineAux x cur false = [stripExcelQuote (cur ++ x)] := by
  induction x with
  | nil => intro cur; simp [parseCsvLineAux]
  | cons c xs ih =>
    intro cur
    simp only [List.contains_cons, Bool.or_eq_false_iff, beq_eq_false_iff_ne, ne_eq] at hq hcomma
    rw [parseCsvLineAux_cons_false _ _ (fun h => hq.1 h.symm) (fun h => hcomma.1 h.symm)]
    rw [ih hq.2 hcomma.2]
    simp

theorem parseCsvLineAux_quote_false (rest cur : List Char) :
    parseCsvLineAux ('"' :: rest) cur false = parseCsvLineAux rest cur true := by
  rw [parseCsvLineAux.eq_def]
  simp

/-- The general corrected round-trip: for every field value that does not
itself begin with a single quote followed by a formula character, parsing
the escaped field yields back exactly that value as the single field. -/
theorem csvField_roundtrip (x : List Char) (h : spuriousStrip x = false) :
    parseCsvLine (escapeCsvField x) = [x] := by
  by_cases hcond : (startsWithFormula x || containsSpecial x) = true
  · have h1 : escapeCsvField x =
        '"' :: (doubleQuotes (if startsWithFormula x then '\'' :: x else x) ++ ['"']) := by
      unfold escapeCsvField
      rw [if_pos hcond]
    rw [parseCsvLine, h1, parseCsvLineAux_quote_false, parseCsvLineAux_doubleQuotes]
    by_cases hf : startsWithFormula x = true
    · rw [if_pos hf]
      match x, hf with
      | c :: xs, hf =>
        have hc : formulaChars.contains c = true := hf
        have hcm : c ∈ formulaChars := by simpa using hc
        simp [stripExcelQuote, hc, hcm]
    · rw [if_neg hf]
      simp [stripExcelQuote_eq_self h]
  · have h1 : escapeCsvField x = x := by
      unfold escapeCsvField
      rw [if_neg hcond]
    simp only [Bool.or_eq_true, not_or, Bool.not_eq_true] at hcond
    have hspec := hcond.2
    simp only [containsSpecial, Bool.or_eq_false_iff] at hspec
    rw [parseCsvLine, h1, parseCsvLineAux_plain x hspec.1.1.2 hspec.1.1.1]
    simp [stripExcelQuote_eq_self h]

/-! ### Blank-row suppression in `parseCsv` -/

theorem mem_pushRow {r cur : List Char} {tail : List (List Char)}
    (h : r ∈ pushRow cur tail) : (r = cur ∧ trimJs cur ≠ []) ∨ r ∈ tail := by
  unfold pushRow at h
  split at h
  · exact Or.inr h
  · rcases List.mem_cons.mp h with h | h
    · exact Or.inl ⟨h, by assumption⟩
    · exact Or.inr h

theorem parseCsvAux_mem_nonblank (content cur : List Char) (inQ : Bool) :
    ∀ r ∈ parseCsvAux content cur inQ, trimJs r ≠ [] := by
  induction content, cur, inQ using parseCsvAux.induct <;> intro r hr <;>
    simp only [parseCsvAux] at hr
  case case1 =>
    rcases mem_pushRow hr with ⟨rfl, hne⟩ | h
    · exact hne
    · simp at h
  case case2 ih => exact ih r hr
  case case3 ih =>
    rcases mem_pushRow hr with ⟨rfl, hne⟩ | h
    · exact hne
    · exact ih r h
  case case4 ih =>
    rcases mem_pushRow hr with ⟨rfl, hne⟩ | h
    · exact hne
    · exact ih r h
  case case5 ih =>
    rcases mem_pushRow hr with ⟨rfl, hne⟩ | h
    · exact hne
    · exact ih r h
  case case6 ih => exact ih r hr

/-- A trim is nonempty exactly when some character is not JavaScript
whitespace. -/
theorem trimJs_ne_nil_iff (cs : List Char) :
    trimJs cs ≠ [] ↔ cs.any (fun c => !(isJsSpace c)) = true := by
  unfold trimJs
  rw [Ne, List.reverse_eq_nil_iff, List.dropWhile_eq_nil_iff]
  constructor
  · intro h
    rw [List.any_eq_true]
    by_contra hcon
    push_neg at hcon
    apply h
    intro x hmem
    have hx : x ∈ cs := (List.dropWhile_sublist _).mem (List.mem_reverse.mp hmem)
    simpa using hcon x hx
  · intro h hall
    rcases List.any_eq_true.mp h with ⟨x, hmem, hx⟩
    have hcs := (List.takeWhile_append_dropWhile (p := isJsSpace) (l := cs)).symm
    rw [hcs] at hmem
    rcases List.mem_append.mp hmem with h1 | h1
    · have := List.mem_takeWhile_imp h1
      simp [this] at hx
    · have := hall x (List.mem_reverse.mpr h1)
      simp [this] at hx

/-! ### Claim theorems for the CSV codec -/

/-- C1, counterexample: the round-trip `parse(escape(x)) = x` fails as
stated. For `x = "'=A"` (a single quote followed by a formula character)
`escapeCsvField` leaves the field untouched, but `stripExcelQuote` on the
parse side strips the quote, so the round-trip returns `"=A"`. -/
theorem claim_C1_counterexample :
    parseCsvLine (escapeCsvField ['\'', '=', 'A']) ≠ [['\'', '=', 'A']] ∧
    parseCsvLine (escapeCsvField ['\'', '=', 'A']) = [['=', 'A']] := by
  decide

/-- C1 (amended): for every string `x` that does not itself begin with a
single quote immediately followed by one of `-`, `+`, `=`, `@`, parsing
the single escaped field produced by the formula-protected
`escapeCsvField` (via `parseCsvLine`'s unquoting and its built-in
`stripExcelQuote` de-protection) yields exactly `x`; this covers strings
containing commas, double quotes, embedded newlines, and strings whose
first character is `-`, `+`, `=`, or `@`. -/
theorem claim_C1_roundtrip_amended (x : List Char) (h : spuriousStrip x = false) :
    parseCsvLine (escapeCsvField x) = [x] :=
  csvField_roundtrip x h

/-- Witness for C1 (amended) at a field containing a comma, a double
quote, an embedded newline and a leading formula character. -/
theorem claim_C1_roundtrip_witness :
    spuriousStrip "=cmd,\"x\"\nline".toList = false ∧
    parseCsvLine (escapeCsvField "=cmd,\"x\"\nline".toList) = ["=cmd,\"x\"\nline".toList] :=
  ⟨by decide, claim_C1_roundtrip_amended _ (by decide)⟩

/-- C6: the field value `=SUM(A1)` is exported by `escapeCsvField` as the
quoted, single-quote-prefixed text `"'=SUM(A1)"`, and parsing that
exported field back through `parseCsvLine` (which applies
`stripExcelQuote`) yields exactly `=SUM(A1)`. -/
theorem claim_C6_excel_protection_instance :
    escapeCsvField "=SUM(A1)".toList = "\"'=SUM(A1)\"".toList ∧
    parseCsvLine "\"'=SUM(A1)\"".toList = ["=SUM(A1)".toList] ∧
    parseCsvLine (escapeCsvField "=SUM(A1)".toList) = ["=SUM(A1)".toList] := by
  decide

/-- C10: the record splitter `parseCsv` returns only rows containing at
least one non-whitespace character; empty and whitespace-only lines
(such as the one after the export's trailing newline) are dropped. -/
theorem claim_C10_blank_rows_dropped (content r : List Char) (h : r ∈ parseCsv content) :
    r.any (fun c => !(isJsSpace c)) = true :=
  (trimJs_ne_nil_iff r).mp (parseCsvAux_mem_nonblank content [] false r h)

/-- Witness for C10 on a concrete input with an empty line, a
whitespace-only line and a trailing newline. -/
theorem claim_C10_witness :
    "a,b".toList ∈ parseCsv "a,b\n\n   \nc,d\n".toList ∧
    ("a,b".toList).any (fun c => !(isJsSpace c)) = true :=
  ⟨by decide, claim_C10_blank_rows_dropped "a,b\n\n   \nc,d\n".toList "a,b".toList (by decide)⟩

/-! ### Session update: partial-body frame property (C2) -/

/-- C2: a PUT body replaces only the fields it carries — every omitted
(`undefined`) field of the body keeps the stored value, partition and row
key are never touched — and for the body `{title: "New Title"}` on any
found session the handler performs a Replace write of the stored entity
with only `title` changed. -/
theorem claim_C2_update_partial_frame (table : List SessionEntity) (id : String)
    (e : SessionEntity) (body : RequestBody) (h : findByRowKey table id = some e) :
    (body.videoId = none → (mergeUpdate id body e).videoId = e.videoId) ∧
    (body.title = none → (mergeUpdate id body e).title = e.title) ∧
    (body.description = none → (mergeUpdate id body e).description = e.description) ∧
    (body.url = none → (mergeUpdate id body e).url = e.url) ∧
    (body.startTime = none → (mergeUpdate id body e).startTime = e.startTime) ∧
    (body.duration = none → (mergeUpdate id body e).duration = e.duration) ∧
    (mergeUpdate id body e).partitionKey = e.partitionKey ∧
    (mergeUpdate id body e).rowKey = e.rowKey ∧
    updateScheduleItem id { title := some "New Title" } table
      = ⟨200, replaceEntity table { e with title := some "New Title" }⟩ := by
  have hid : e.rowKey = id := by
    have := List.find?_some h
    exact eq_of_beq this
  refine ⟨?_, ?_, ?_, ?_, ?_, ?_, rfl, hid.symm, ?_⟩
  · intro hb; simp [mergeUpdate, hb, jsOrOptString]
  · intro hb; simp [mergeUpdate, hb, jsOrOptString]
  · intro hb; simp [mergeUpdate, hb]
  · intro hb; simp [mergeUpdate, hb, jsOrString]
  · intro hb; simp [mergeUpdate, hb, jsOrString]
  · intro hb; simp [mergeUpdate, hb]
  · have hm : mergeUpdate id { title := some "New Title" } e
        = { e with title := some "New Title" } := by
      cases e
      simp_all [mergeUpdate, jsOrOptString, jsOrString]
    rw [updateScheduleItem, h]
    simp [hm]

/-- Witness for C2: the body `{title: "New Title"}` on a one-row table
updates only the title of the stored session. -/
theorem claim_C2_witness :
    findByRowKey [sampleSession] "sess_1" = some sampleSession ∧
    updateScheduleItem "sess_1" { title := some "New Title" } [sampleSession]
      = ⟨200, replaceEntity [sampleSession] { sampleSession with title := some "New Title" }⟩ :=
  ⟨by decide,
   (claim_C2_update_partial_frame [sampleSession] "sess_1" sampleSession
      { title := some "New Title" } (by decide)).2.2.2.2.2.2.2.2⟩

/-! ### Session creation: validation behaviour (C3) -/

/-- C3, counterexample: the claim that a body missing a required field
yields HTTP 400 is false. A body with no `videoId` (but a valid
`startTime`) is stored and answered 201, and a body with no `startTime`
is answered 500 (the `toISOString` throw caught by the handler), never
400. -/
theorem claim_C3_counterexample :
    (addScheduleItem 0 "sess_1"
      { title := some "Talk", startTime := some "2026-03-15T14:00:00Z" } []).status = 201 ∧
    (addScheduleItem 0 "sess_1"
      { title := some "Talk", startTime := some "2026-03-15T14:00:00Z" } []).table.length = 1 ∧
    (addScheduleItem 0 "sess_1" { videoId := some "v", title := some "T" } []).status = 500 := by
  decide

/-- C3 (amended): `addScheduleItem` performs no required-field
validation and never answers 400: a missing or unparsable `startTime`
surfaces as HTTP 500 with the table untouched, and any parsable
`startTime` yields HTTP 201 with the record appended even when
`videoId` or `title` are absent. -/
theorem claim_C3_amended (tz : Int) (id : String) (body : RequestBody)
    (table : List SessionEntity) :
    (addScheduleItem tz id body table).status ≠ 400 ∧
    (body.startTime = none → addScheduleItem tz id body table = ⟨500, table⟩) ∧
    (∀ st, body.startTime = some st → jsDateParse tz st = none →
      addScheduleItem tz id body table = ⟨500, table⟩) ∧
    (∀ st t, body.startTime = some st → jsDateParse tz st = some t →
      (addScheduleItem tz id body table).status = 201 ∧
      (addScheduleItem tz id body table).table.length = table.length + 1) := by
  refine ⟨?_, ?_, ?_, ?_⟩
  · unfold addScheduleItem
    cases hst : body.startTime with
    | none => simp
    | some st => cases ht : jsDateParse tz st <;> simp [ht]
  · intro hst; simp [addScheduleItem, hst]
  · intro st hst ht; simp [addScheduleItem, hst, ht]
  · intro st t hst ht
    simp [addScheduleItem, hst, ht, createEntity]

/-- Witness for C3 (amended): a body whose only fields are `title` and a
valid `startTime` (no `videoId`) is created with 201. -/
theorem claim_C3_witness :
    RequestBody.startTime { title := some "Talk", startTime := some "2026-03-15T14:00:00Z" }
      = some "2026-03-15T14:00:00Z" ∧
    jsDateParse 0 "2026-03-15T14:00:00Z" = some 1773583200000 ∧
    (addScheduleItem 0 "sess_1"
      { title := some "Talk", startTime := some "2026-03-15T14:00:00Z" } []).status = 201 ∧
    (addScheduleItem 0 "sess_1"
      { title := some "Talk", startTime := some "2026-03-15T14:00:00Z" } []).table.length = 0 + 1 :=
  ⟨rfl, by decide,
   (claim_C3_amended 0 "sess_1" { title := some "Talk", startTime := some "2026-03-15T14:00:00Z" }
      []).2.2.2 "2026-03-15T14:00:00Z" 1773583200000 rfl (by decide)⟩

/-! ### Speaker merge deduplication (C9) -/

theorem mem_jsSetDedup (l : List String) : ∀ (seen : List String) (x : String),
    x ∈ jsSetDedup seen l ↔ x ∈ l ∧ x ∉ seen := by
  induction l with
  | nil => intro seen x; simp [jsSetDedup]
  | cons a xs ih =>
    intro seen x
    by_cases ha : seen.contains a
    · rw [jsSetDedup, if_pos ha, ih]
      have ham : a ∈ seen := by simpa using ha
      constructor
      · rintro ⟨hx, hs⟩
        exact ⟨List.mem_cons_of_mem _ hx, hs⟩
      · rintro ⟨hx, hs⟩
        rcases List.mem_cons.mp hx with rfl | hx
        · exact absurd ham hs
        · exact ⟨hx, hs⟩
    · rw [jsSetDedup, if_neg ha]
      have ham : a ∉ seen := by simpa using ha
      simp only [List.mem_cons, ih]
      constructor
      · rintro (rfl | ⟨hx, hs⟩)
        · exact ⟨Or.inl rfl, ham⟩
        · exact ⟨Or.inr hx, fun hmem => hs (Or.inr hmem)⟩
      · rintro ⟨rfl | hx, hs⟩
        · exact Or.inl rfl
        · by_cases hxa : x = a
          · exact Or.inl hxa
          · exact Or.inr ⟨hx, fun h => h.elim hxa hs⟩

theorem nodup_jsSetDedup (l : List String) : ∀ seen : List String,
    (jsSetDedup seen l).Nodup := by
  induction l with
  | nil => intro seen; simp [jsSetDedup]
  | cons a xs ih =>
    intro seen
    by_cases ha : seen.contains a
    · rw [jsSetDedup, if_pos ha]; exact ih seen
    · rw [jsSetDedup, if_neg ha]
      refine List.nodup_cons.mpr ⟨?_, ih _⟩
      intro hmem
      exact ((mem_jsSetDedup xs (a :: seen) a).mp hmem).2 (List.mem_cons_self a seen)

/-- C9: after the extraction merge path, the stored `sessionIds` list is
the set union of the previously stored ids and the newly extracted ids
and contains no duplicates. -/
theorem claim_C9_sessionIds_dedup (existing : SpeakerEntity) (newIds : List String) :
    (mergeExtractedSpeaker existing newIds).sessionIds.Nodup ∧
    ∀ s, s ∈ (mergeExtractedSpeaker existing newIds).sessionIds ↔
      (s ∈ existing.sessionIds ∨ s ∈ newIds) := by
  constructor
  · exact nodup_jsSetDedup _ []
  · intro s
    unfold mergeExtractedSpeaker
    rw [mem_jsSetDedup]
    simp

/-! ### CSV import claims (C4, C5, C7, C8) -/

/-- C4: a data row whose `starttime` does not parse appends exactly one
per-row error message and changes nothing else; the loop then continues
with the remaining rows unchanged; and for any structurally valid CSV
the handler answers HTTP 200 carrying the aggregate created/updated
counts and the per-row error list of the full loop — a row-level failure
never aborts the batch. -/
theorem claim_C4_row_resilience (tz : Int) (f : Nat → String)
    (headers : List (List Char)) (row : List Char) (rest : List (List Char))
    (j : Nat) (st : ImportState) (rawStart : List Char)
    (hraw : recordValue (buildRecord headers (parseCsvLine row)) "starttime".toList
      = some rawStart)
    (hbad : jsDateParse tz (String.mk rawStart) = none) :
    processImportRow tz (f j) headers row (j + 2) st
      = { st with errors := st.errors ++ [rowErrMsg (j + 2) (some rawStart)] } ∧
    processImportRows tz f headers (row :: rest) j st
      = processImportRows tz f headers rest (j + 1)
          { st with errors := st.errors ++ [rowErrMsg (j + 2) (some rawStart)] } ∧
    ∀ (content : String) (table : List SessionEntity) (r0 r1 : List Char)
      (rs : List (List Char)),
      parseCsv content.toList = r0 :: r1 :: rs →
      requiredColumns.find?
          (fun c => !(((parseCsvLine r0).map lowerTrim).contains c)) = none →
      importScheduleFromCsv tz f content table
        = ⟨200,
            (processImportRows tz f ((parseCsvLine r0).map lowerTrim) (r1 :: rs) 0
              ⟨table, 0, 0, []⟩).table,
            (processImportRows tz f ((parseCsvLine r0).map lowerTrim) (r1 :: rs) 0
              ⟨table, 0, 0, []⟩).created,
            (processImportRows tz f ((parseCsvLine r0).map lowerTrim) (r1 :: rs) 0
              ⟨table, 0, 0, []⟩).updated,
            (processImportRows tz f ((parseCsvLine r0).map lowerTrim) (r1 :: rs) 0
              ⟨table, 0, 0, []⟩).errors⟩ := by
  have h1 : processImportRow tz (f j) headers row (j + 2) st
      = { st with errors := st.errors ++ [rowErrMsg (j + 2) (some rawStart)] } := by
    simp only [processImportRow]
    rw [hraw]
    dsimp only
    rw [hbad]
  refine ⟨h1, ?_, ?_⟩
  · rw [processImportRows, h1]
  · intro content table r0 r1 rs hrows hfind
    rw [importScheduleFromCsv, hrows]
    dsimp only
    rw [hfind]

/-- Witness for C4: a concrete import whose first data row has
`starttime = "not-a-date"` records the row-2 error and continues to
create the second, valid row. -/
theorem claim_C4_witness :
    recordValue (buildRecord (requiredColumns) (parseCsvLine "v1,T1,not-a-date".toList))
        "starttime".toList = some "not-a-date".toList ∧
    jsDateParse 0 "not-a-date" = none ∧
    processImportRow 0 "sess_f" requiredColumns "v1,T1,not-a-date".toList 2 ⟨[], 0, 0, []⟩
      = ⟨[], 0, 0, ["Row 2: Invalid startTime \"not-a-date\""]⟩ ∧
    importScheduleFromCsv 0 (fun _ => "sess_f")
        "videoId,title,startTime\nv1,T1,not-a-date\nv2,T2,2026-03-15T14:00:00Z\n" []
      = ⟨200,
         [⟨"2026-03-15", "sess_f", some "v2", some "T2", "",
           "https://www.youtube.com/watch?v=v2", "2026-03-15T14:00:00Z", 0⟩],
         1, 0, ["Row 2: Invalid startTime \"not-a-date\""]⟩ := by
  refine ⟨by decide, by decide, ?_, by decide⟩
  have h := (claim_C4_row_resilience 0 (fun _ => "sess_f") requiredColumns
    "v1,T1,not-a-date".toList [] 0 ⟨[], 0, 0, []⟩ "not-a-date".toList
    (by decide) (by decide)).1
  simpa using h

/-- C5: upsert semantics of a valid import row. When no stored row has
the row's session id the entity is appended and counted as created; when
the first stored row with that id sits under the same partition key it
is replaced in place (table length preserved) and counted as updated;
when it sits under a different partition key the old row's key is
deleted, the new entity created under the new partition key, no row with
the old key pair survives, and the row is counted as updated. -/
theorem claim_C5_upsert (tz : Int) (fid : String) (headers : List (List Char))
    (row : List Char) (rowNum : Nat) (st : ImportState) (rawStart : List Char) (t : Int)
    (hraw : recordValue (buildRecord headers (parseCsvLine row)) "starttime".toList
      = some rawStart)
    (ht : jsDateParse tz (String.mk rawStart) = some t) :
    (findByRowKey st.table (importRowSessionId fid headers row) = none →
      processImportRow tz fid headers row rowNum st
        = { st with
            table := createEntity st.table
              (importRowEntity (buildRecord headers (parseCsvLine row))
                (importRowSessionId fid headers row) t)
            created := st.created + 1 }) ∧
    (∀ ex, findByRowKey st.table (importRowSessionId fid headers row) = some ex →
      ex.partitionKey = isoDateOnly t →
      processImportRow tz fid headers row rowNum st
        = { st with
            table := replaceEntity st.table
              (importRowEntity (buildRecord headers (parseCsvLine row))
                (importRowSessionId fid headers row) t)
            updated := st.updated + 1 } ∧
      (processImportRow tz fid headers row rowNum st).table.length = st.table.length) ∧
    (∀ ex, findByRowKey st.table (importRowSessionId fid headers row) = some ex →
      ex.partitionKey ≠ isoDateOnly t →
      processImportRow tz fid headers row rowNum st
        = { st with
            table := createEntity
              (deleteEntity st.table ex.partitionKey ex.rowKey)
              (importRowEntity (buildRecord headers (parseCsvLine row))
                (importRowSessionId fid headers row) t)
            updated := st.updated + 1 } ∧
      (∀ e2 ∈ (processImportRow tz fid headers row rowNum st).table,
        ¬(e2.partitionKey = ex.partitionKey ∧ e2.rowKey = ex.rowKey)) ∧
      importRowEntity (buildRecord headers (parseCsvLine row))
          (importRowSessionId fid headers row) t
        ∈ (processImportRow tz fid headers row rowNum st).table) := by
  refine ⟨?_, ?_, ?_⟩
  · intro hfind
    simp only [processImportRow]
    rw [hraw]
    dsimp only
    rw [ht]
    simp [hfind]
  · intro ex hfind hpk
    have heq : processImportRow tz fid headers row rowNum st
        = { st with
            table := replaceEntity st.table
              (importRowEntity (buildRecord headers (parseCsvLine row))
                (importRowSessionId fid headers row) t)
            updated := st.updated + 1 } := by
      simp only [processImportRow]
      rw [hraw]
      dsimp only
      rw [ht]
      simp [hfind, importRowEntity, hpk]
    refine ⟨heq, ?_⟩
    rw [heq]
    simp [replaceEntity]
  · intro ex hfind hpk
    have heq : processImportRow tz fid headers row rowNum st
        = { st with
            table := createEntity
              (deleteEntity st.table ex.partitionKey ex.rowKey)
              (importRowEntity (buildRecord headers (parseCsvLine row))
                (importRowSessionId fid headers row) t)
            updated := st.updated + 1 } := by
      simp only [processImportRow]
      rw [hraw]
      dsimp only
      rw [ht]
      simp [hfind, importRowEntity, hpk]
    refine ⟨heq, ?_, ?_⟩
    · intro e2 he2
      rw [heq] at he2
      simp [createEntity, deleteEntity, List.mem_append, List.mem_filter] at he2
      rcases he2 with ⟨_, hkey⟩ | rfl
      · rintro ⟨hp, hr⟩
        simp [hp, hr] at hkey
      · rintro ⟨hp, _⟩
        exact hpk (by simpa [importRowEntity] using hp.symm)
    · rw [heq]
      simp [createEntity]

/-- Witness for C5: an import row carrying an existing session id whose
new start date lies in a different partition moves the row: the old
partition's copy is deleted, the new one created, and the row counted as
updated. -/
theorem claim_C5_witness :
    recordValue (buildRecord ("sessionid".toList :: requiredColumns)
        (parseCsvLine "sess_1,v1,T1,2026-03-15T14:00:00Z".toList)) "starttime".toList
      = some "2026-03-15T14:00:00Z".toList ∧
    jsDateParse 0 "2026-03-15T14:00:00Z" = some 1773583200000 ∧
    findByRowKey [sampleSession] (importRowSessionId "sess_f"
        ("sessionid".toList :: requiredColumns)
        "sess_1,v1,T1,2026-03-15T14:00:00Z".toList) = some sampleSession ∧
    sampleSession.partitionKey ≠ isoDateOnly 1773583200000 ∧
    processImportRow 0 "sess_f" ("sessionid".toList :: requiredColumns)
        "sess_1,v1,T1,2026-03-15T14:00:00Z".toList 2 ⟨[sampleSession], 0, 0, []⟩
      = ⟨[importRowEntity (buildRecord ("sessionid".toList :: requiredColumns)
            (parseCsvLine "sess_1,v1,T1,2026-03-15T14:00:00Z".toList)) "sess_1" 1773583200000],
         0, 1, []⟩ := by
  refine ⟨by decide, by decide, by decide, by decide, ?_⟩
  have h := ((claim_C5_upsert 0 "sess_f" ("sessionid".toList :: requiredColumns)
    "sess_1,v1,T1,2026-03-15T14:00:00Z".toList 2 ⟨[sampleSession], 0, 0, []⟩
    "2026-03-15T14:00:00Z".toList 1773583200000 (by decide) (by decide)).2.2
    sampleSession (by decide) (by decide)).1
  rw [h]
  decide

/-- C7, counterexample: the stored partition key is the UTC date of the
parsed `startTime`, not the date portion of the `startTime` string. For
`startTime = "2026-03-15T23:00:00-05:00"` the created record stores
`partitionKey = "2026-03-16"` while the string's own date portion is
`"2026-03-15"`. -/
theorem claim_C7_counterexample :
    ((addScheduleItem 0 "sess_1"
        { videoId := some "vid", title := some "Talk",
          startTime := some "2026-03-15T23:00:00-05:00" } []).table.map
      (fun e => e.partitionKey)) = ["2026-03-16"] ∧
    String.mk ("2026-03-15T23:00:00-05:00".toList.take 10) = "2026-03-15" ∧
    ("2026-03-16" : String) ≠ "2026-03-15" := by
  decide

/-- C7 (amended): for every session created via POST or imported via
CSV, the stored partition key is the `YYYY-MM-DD` part of the UTC
(`toISOString`) rendering of the parsed `startTime`; for a UTC
`...Z` timestamp this coincides with the date portion of the string
itself, as in the claim's instance `"2026-03-15T14:00:00Z" ↦
"2026-03-15"`. -/
theorem claim_C7_partition_key (tz : Int) (id : String) (body : RequestBody)
    (table : List SessionEntity) (st : String) (t : Int)
    (h1 : body.startTime = some st) (h2 : jsDateParse tz st = some t) :
    ((addScheduleItem tz id body table).table.map (fun e => e.partitionKey)
      = table.map (fun e => e.partitionKey) ++ [isoDateOnly t]) ∧
    (∀ record sessionId, (importRowEntity record sessionId t).partitionKey = isoDateOnly t) ∧
    ((addScheduleItem 0 "sess_1"
        { videoId := some "vid", title := some "Talk",
          startTime := some "2026-03-15T14:00:00Z" } []).table.map (fun e => e.partitionKey)
      = ["2026-03-15"]) := by
  refine ⟨?_, fun record sessionId => rfl, by decide⟩
  simp [addScheduleItem, h1, h2, createEntity]

/-- Witness for C7 (amended) at the claim's concrete instance. -/
theorem claim_C7_witness :
    jsDateParse 0 "2026-03-15T14:00:00Z" = some 1773583200000 ∧
    ((addScheduleItem 0 "sess_1"
        { videoId := some "vid", title := some "Talk",
          startTime := some "2026-03-15T14:00:00Z" } []).table.map (fun e => e.partitionKey)
      = [] ++ [isoDateOnly 1773583200000]) ∧
    isoDateOnly 1773583200000 = "2026-03-15" :=
  ⟨by decide,
   by
    have h := (claim_C7_partition_key 0 "sess_1"
      { videoId := some "vid", title := some "Talk",
        startTime := some "2026-03-15T14:00:00Z" } [] "2026-03-15T14:00:00Z" 1773583200000
      rfl (by decide)).1
    simpa using h,
   by decide⟩

/-- C8: structural validation of the import. A parsed content with
fewer than two rows, or a header row missing one of the required
columns `videoid`, `title`, `starttime` (case-insensitively), aborts
the whole import with HTTP 400, zero counts and an untouched table. -/
theorem claim_C8_structural_validation (tz : Int) (f : Nat → String) (content : String)
    (table : List SessionEntity) :
    ((parseCsv content.toList).length < 2 →
      importScheduleFromCsv tz f content table = ⟨400, table, 0, 0, []⟩) ∧
    (∀ r0 r1 rs col, parseCsv content.toList = r0 :: r1 :: rs →
      requiredColumns.find?
          (fun c => !(((parseCsvLine r0).map lowerTrim).contains c)) = some col →
      importScheduleFromCsv tz f content table = ⟨400, table, 0, 0, []⟩) := by
  constructor
  · intro hlen
    rw [importScheduleFromCsv]
    rcases hrows : parseCsv content.toList with _ | ⟨r0, _ | ⟨r1, rs⟩⟩
    · rfl
    · rfl
    · rw [hrows] at hlen
      simp at hlen
      omega
  · intro r0 r1 rs col hrows hfind
    rw [importScheduleFromCsv, hrows]
    dsimp only
    rw [hfind]

/-- Witness for C8: a header-only CSV and a CSV missing the `starttime`
column are both rejected with 400 and no data row processed. -/
theorem claim_C8_witness :
    (parseCsv "videoId,title,startTime\n".toList).length < 2 ∧
    importScheduleFromCsv 0 (fun _ => "sess_f") "videoId,title,startTime\n" [sampleSession]
      = ⟨400, [sampleSession], 0, 0, []⟩ ∧
    importScheduleFromCsv 0 (fun _ => "sess_f") "videoId,title\nv1,T1\n" [sampleSession]
      = ⟨400, [sampleSession], 0, 0, []⟩ :=
  ⟨by decide,
   (claim_C8_structural_validation 0 (fun _ => "sess_f") "videoId,title,startTime\n"
      [sampleSession]).1 (by decide),
   (claim_C8_structural_validation 0 (fun _ => "sess_f") "videoId,title\nv1,T1\n"
      [sampleSession]).2 "videoId,title".toList "v1,T1".toList [] "starttime".toList
      (by decide) (by decide)⟩

end AzrCoreEvent

-- concrete evaluations of the codec state machines
example : AzrCoreEvent.escapeCsvField "=SUM(A1)".toList = "\"'=SUM(A1)\"".toList := by decide
example : AzrCoreEvent.parseCsvLine "\"'=SUM(A1)\"".toList = ["=SUM(A1)".toList] := by decide
example : AzrCoreEvent.parseCsvLine "a,\"b,c\",d".toList
    = ["a".toList, "b,c".toList, "d".toList] := by decide
example : AzrCoreEvent.parseCsv "a,b\n\n  \nc,d\n".toList
    = ["a,b".toList, "c,d".toList] := by decide
example : AzrCoreEvent.parseCsv "a,\"x\ny\"\r\nc\r".toList
    = ["a,\"x\ny\"".toList, "c".toList] := by decide
example : AzrCoreEvent.parseCsvLine (AzrCoreEvent.escapeCsvField "'=bad".toList)
    = ["=bad".toList] := by decide
